import Mathlib

/-!
Verification of the GrowthApp chatbot (src/app.py) against its specification.

Python strings are modelled as `List Char`, Python values decoded from JSON as
the inductive type `Json`, the Streamlit session state as `SessionState`.
The remote completion endpoint is external I/O, so each per-turn completion
result (the text returned by `query_ollama`, or `none` for a failed call) is
supplied by a `TurnOracle`; `query_ollama` itself is modelled separately over
an explicit `TransportOutcome`.

The JSON reader mirrors `json.loads` on the integer fragment of JSON
(fractional and exponent number forms are outside this embedding; they never
occur in the claims), and the writer mirrors `json.dumps(x, indent=2)` with
its default `ensure_ascii` escaping on the basic multilingual plane.
-/

set_option maxHeartbeats 1000000

set_option maxRecDepth 100000

/-- The apostrophe character, used inside the prompt templates. -/
def apos : Char := Char.ofNat 39

/-- The left-brace character. -/
def lbrace : Char := Char.ofNat 123

/-- The right-brace character. -/
def rbrace : Char := Char.ofNat 125

/-- Index of the first occurrence of `c`, if any. -/
def find_idx (c : Char) : List Char → Option Nat
  | [] => none
  | x :: xs => if x = c then some 0 else (find_idx c xs).map (· + 1)

/-- Index of the last occurrence of `c`, if any. -/
def rfind_idx (c : Char) : List Char → Option Nat
  | [] => none
  | x :: xs =>
      match rfind_idx c xs with
      | some i => some (i + 1)
      | none => if x = c then some 0 else none

/-- Python `s.find(c)`: index of the first occurrence of `c`, or `-1`. -/
def py_find (c : Char) (s : List Char) : Int :=
  match find_idx c s with
  | some i => (i : Int)
  | none => -1

/-- Python `s.rfind(c)`: index of the last occurrence of `c`, or `-1`. -/
def py_rfind (c : Char) (s : List Char) : Int :=
  match rfind_idx c s with
  | some i => (i : Int)
  | none => -1

/-- Python `s[a:b]` for nonnegative bounds: elements with `a ≤ i < b`, clamped. -/
def py_slice (s : List Char) (a b : Nat) : List Char :=
  (s.take b).drop a

/-- Python whitespace for `str.strip()` (the six ASCII space characters). -/
def py_isspace (c : Char) : Bool :=
  c = ' ' ∨ c = '\t' ∨ c = '\n' ∨ c = '\r' ∨ c = Char.ofNat 11 ∨ c = Char.ofNat 12

/-- Python `s.strip()`. -/
def py_strip (s : List Char) : List Char :=
  ((s.dropWhile py_isspace).reverse.dropWhile py_isspace).reverse

/-- Python `sep.join(parts)`. -/
def join_with (sep : List Char) : List (List Char) → List Char
  | [] => []
  | [x] => x
  | x :: y :: xs => x ++ sep ++ join_with sep (y :: xs)

/-- `starts_with p s` decides whether `p` is a prefix of `s`. -/
def starts_with : List Char → List Char → Bool
  | [], _ => true
  | _ :: _, [] => false
  | p :: ps, c :: cs => p = c && starts_with ps cs

/-- `contains_sub pat s` decides whether `pat` occurs as a contiguous substring of `s`. -/
def contains_sub (pat : List Char) : List Char → Bool
  | [] => pat.isEmpty
  | c :: rest => starts_with pat (c :: rest) || contains_sub pat rest

/-- A Python value decoded from JSON: `None`, `bool`, `int`, `str`, `list`, `dict`. -/
inductive Json where
  | null : Json
  | bool (b : Bool) : Json
  | num (n : Int) : Json
  | str (s : List Char) : Json
  | arr (xs : List Json) : Json
  | obj (kvs : List (List Char × Json)) : Json

instance : Nonempty Json := ⟨Json.null⟩

instance : Nonempty (List (List Char × Json)) := ⟨[]⟩

mutual

/-- Boolean equality on `Json` (the nested induction prevents `deriving DecidableEq`). -/
def Json.beq : Json → Json → Bool
  | .null, .null => true
  | .bool x, .bool y => x = y
  | .num x, .num y => x = y
  | .str x, .str y => x = y
  | .arr xs, .arr ys => Json.beqL xs ys
  | .obj kvs, .obj kvs2 => Json.beqKV kvs kvs2
  | _, _ => false

def Json.beqL : List Json → List Json → Bool
  | [], [] => true
  | x :: xs, y :: ys => Json.beq x y && Json.beqL xs ys
  | _, _ => false

def Json.beqKV : List (List Char × Json) → List (List Char × Json) → Bool
  | [], [] => true
  | (k, v) :: kvs, (k2, v2) :: kvs2 => k = k2 && Json.beq v v2 && Json.beqKV kvs kvs2
  | _, _ => false

end

theorem Json.beq_refl_all : ∀ n : Nat,
    (∀ a : Json, sizeOf a ≤ n → Json.beq a a = true) ∧
    (∀ xs : List Json, sizeOf xs ≤ n → Json.beqL xs xs = true) ∧
    (∀ kvs : List (List Char × Json), sizeOf kvs ≤ n → Json.beqKV kvs kvs = true) := by
  intro n
  induction n with
  | zero =>
    refine ⟨fun a h => ?_, fun xs h => ?_, fun kvs h => ?_⟩
    · cases a <;> simp at h
    · cases xs with
      | nil => simp [Json.beqL]
      | cons x xs => simp at h
    · cases kvs with
      | nil => simp [Json.beqKV]
      | cons kv kvs => simp at h
  | succ n ih =>
    obtain ⟨ihJ, ihL, ihKV⟩ := ih
    refine ⟨fun a hs => ?_, fun xs hs => ?_, fun kvs hs => ?_⟩
    · cases a with
      | null => simp [Json.beq]
      | bool b => simp [Json.beq]
      | num m => simp [Json.beq]
      | str s => simp [Json.beq]
      | arr xs =>
        simp only [Json.beq]
        exact ihL xs (by simp at hs ⊢; omega)
      | obj kvs =>
        simp only [Json.beq]
        exact ihKV kvs (by simp at hs ⊢; omega)
    · cases xs with
      | nil => simp [Json.beqL]
      | cons x xs =>
        simp only [Json.beqL, Bool.and_eq_true]
        exact ⟨ihJ x (by simp at hs ⊢; omega), ihL xs (by simp at hs ⊢; omega)⟩
    · cases kvs with
      | nil => simp [Json.beqKV]
      | cons kv kvs =>
        obtain ⟨k, v⟩ := kv
        simp only [Json.beqKV, Bool.and_eq_true]
        exact ⟨⟨by simp, ihJ v (by simp at hs ⊢; omega)⟩, ihKV kvs (by simp at hs ⊢; omega)⟩

theorem Json.eq_of_beq_all : ∀ n : Nat,
    (∀ a b : Json, sizeOf a ≤ n → Json.beq a b = true → a = b) ∧
    (∀ xs ys : List Json, sizeOf xs ≤ n → Json.beqL xs ys = true → xs = ys) ∧
    (∀ kvs kvs2 : List (List Char × Json), sizeOf kvs ≤ n → Json.beqKV kvs kvs2 = true → kvs = kvs2) := by
  intro n
  induction n with
  | zero =>
    refine ⟨fun a b h => ?_, fun xs ys h => ?_, fun kvs kvs2 h => ?_⟩
    · cases a <;> simp at h
    · cases xs with
      | nil => cases ys with
        | nil => intro; rfl
        | cons y ys => simp [Json.beqL]
      | cons x xs => simp at h
    · cases kvs with
      | nil => cases kvs2 with
        | nil => intro; rfl
        | cons kv kvs2 => simp [Json.beqKV]
      | cons kv kvs => simp at h
  | succ n ih =>
    obtain ⟨ihJ, ihL, ihKV⟩ := ih
    refine ⟨fun a b hs hb => ?_, fun xs ys hs hb => ?_, fun kvs kvs2 hs hb => ?_⟩
    · cases a with
      | null => cases b <;> simp_all [Json.beq]
      | bool x => cases b <;> simp_all [Json.beq]
      | num x => cases b <;> simp_all [Json.beq]
      | str x => cases b <;> simp_all [Json.beq]
      | arr xs =>
        cases b with
        | arr ys =>
          simp only [Json.beq] at hb
          have := ihL xs ys (by simp at hs ⊢; omega) hb
          simp [this]
        | null => simp_all [Json.beq]
        | bool y => simp_all [Json.beq]
        | num y => simp_all [Json.beq]
        | str y => simp_all [Json.beq]
        | obj kvs => simp_all [Json.beq]
      | obj kvs =>
        cases b with
        | obj kvs2 =>
          simp only [Json.beq] at hb
          have := ihKV kvs kvs2 (by simp at hs ⊢; omega) hb
          simp [this]
        | null => simp_all [Json.beq]
        | bool y => simp_all [Json.beq]
        | num y => simp_all [Json.beq]
        | str y => simp_all [Json.beq]
        | arr ys => simp_all [Json.beq]
    · cases xs with
      | nil => cases ys <;> simp_all [Json.beqL]
      | cons x xs =>
        cases ys with
        | nil => simp_all [Json.beqL]
        | cons y ys =>
          simp only [Json.beqL, Bool.and_eq_true] at hb
          have h1 : x = y := ihJ x y (by simp at hs ⊢; omega) hb.1
          have h2 : xs = ys := ihL xs ys (by simp at hs ⊢; omega) hb.2
          simp [h1, h2]
    · cases kvs with
      | nil => cases kvs2 <;> simp_all [Json.beqKV]
      | cons kv kvs =>
        obtain ⟨k, v⟩ := kv
        cases kvs2 with
        | nil => simp_all [Json.beqKV]
        | cons kv2 kvs2 =>
          obtain ⟨k2, v2⟩ := kv2
          simp only [Json.beqKV, Bool.and_eq_true] at hb
          have h1 : k = k2 := by
            have := hb.1.1
            simpa using this
          have h2 : v = v2 := ihJ v v2 (by simp at hs ⊢; omega) hb.1.2
          have h3 : kvs = kvs2 := ihKV kvs kvs2 (by simp at hs ⊢; omega) hb.2
          simp [h1, h2, h3]

theorem Json.beq_iff (a b : Json) : Json.beq a b = true ↔ a = b := by
  constructor
  · exact (Json.eq_of_beq_all (sizeOf a)).1 a b (le_refl _)
  · intro h
    subst h
    exact (Json.beq_refl_all (sizeOf a)).1 a (le_refl _)

instance : DecidableEq Json := fun a b =>
  decidable_of_iff (Json.beq a b = true) (Json.beq_iff a b)

/-- Python truthiness of a decoded value. -/
def truthy : Json → Bool
  | .null => false
  | .bool b => b
  | .num n => n ≠ 0
  | .str s => !s.isEmpty
  | .arr xs => !xs.isEmpty
  | .obj kvs => !kvs.isEmpty

/-- First binding of key `k` in an association list. -/
def assoc_get : List (List Char × Json) → List Char → Option Json
  | [], _ => none
  | (k2, v) :: rest, k => if k2 = k then some v else assoc_get rest k

/-- Python `d.get(k)` / `k in d` on a decoded object.  Records of the dataset are
objects per the data model; a non-object value is treated as having no keys. -/
def dict_get (j : Json) (k : List Char) : Option Json :=
  match j with
  | .obj kvs => assoc_get kvs k
  | _ => none

/-- Whether a decoded value is an object (a Python `dict`). -/
def Json.isObj : Json → Bool
  | .obj _ => true
  | _ => false

/-- Insert into a Python dict under construction: replace in place, else append. -/
def obj_insert (kvs : List (List Char × Json)) (k : List Char) (v : Json) :
    List (List Char × Json) :=
  if kvs.any (fun p => p.1 = k) then
    kvs.map (fun p => if p.1 = k then (k, v) else p)
  else kvs ++ [(k, v)]

/-- JSON whitespace accepted by `json.loads` between tokens. -/
def is_json_ws (c : Char) : Bool :=
  c = ' ' ∨ c = '\t' ∨ c = '\n' ∨ c = '\r'

def skip_ws (s : List Char) : List Char := s.dropWhile is_json_ws

/-- Numeric value of a hexadecimal digit. -/
def hex_val (c : Char) : Nat :=
  if '0' ≤ c ∧ c ≤ '9' then c.toNat - 48
  else if 'a' ≤ c ∧ c ≤ 'f' then c.toNat - 87
  else if 'A' ≤ c ∧ c ≤ 'F' then c.toNat - 55
  else 0

def is_hex (c : Char) : Bool :=
  ('0' ≤ c ∧ c ≤ '9') ∨ ('a' ≤ c ∧ c ≤ 'f') ∨ ('A' ≤ c ∧ c ≤ 'F')

/-- Body of a JSON string after the opening quote: returns the decoded
characters and the input remaining after the closing quote. -/
def parse_string_rest : List Char → Option (List Char × List Char)
  | [] => none
  | '"' :: rest => some ([], rest)
  | '\\' :: 'u' :: h1 :: h2 :: h3 :: h4 :: rest =>
      if is_hex h1 ∧ is_hex h2 ∧ is_hex h3 ∧ is_hex h4 then
        match parse_string_rest rest with
        | some (cs, r) =>
            some (Char.ofNat (4096 * hex_val h1 + 256 * hex_val h2 + 16 * hex_val h3 + hex_val h4) :: cs, r)
        | none => none
      else none
  | '\\' :: e :: rest =>
      let esc : Option Char :=
        if e = '"' then some '"'
        else if e = '\\' then some '\\'
        else if e = '/' then some '/'
        else if e = 'b' then some (Char.ofNat 8)
        else if e = 'f' then some (Char.ofNat 12)
        else if e = 'n' then some '\n'
        else if e = 'r' then some '\r'
        else if e = 't' then some '\t'
        else none
      match esc with
      | some c =>
        match parse_string_rest rest with
        | some (cs, r) => some (c :: cs, r)
        | none => none
      | none => none
  | c :: rest =>
      if c.toNat < 32 then none
      else
        match parse_string_rest rest with
        | some (cs, r) => some (c :: cs, r)
        | none => none

/-- Split a leading run of decimal digits from the input. -/
def take_digits : List Char → List Char × List Char
  | [] => ([], [])
  | c :: cs =>
      if c.isDigit then
        let p := take_digits cs
        (c :: p.1, p.2)
      else ([], c :: cs)

def digits_to_nat (ds : List Char) : Nat :=
  ds.foldl (fun a c => 10 * a + (c.toNat - 48)) 0

/-- A JSON number on the integer fragment: optional minus, digits without a
leading zero; a following fraction or exponent is outside this embedding. -/
def parse_number (s : List Char) : Option (Json × List Char) :=
  let p1 : Bool × List Char :=
    match s with
    | '-' :: rest => (true, rest)
    | _ => (false, s)
  let p2 := take_digits p1.2
  if p2.1.isEmpty then none
  else if p2.1.head? = some '0' ∧ p2.1.length ≠ 1 then none
  else
    match p2.2 with
    | '.' :: _ => none
    | 'e' :: _ => none
    | 'E' :: _ => none
    | _ =>
        let n : Int := (digits_to_nat p2.1 : Int)
        some (Json.num (if p1.1 then -n else n), p2.2)

mutual

/-- One JSON value at the head of the input (no leading whitespace). -/
def parse_value : Nat → List Char → Option (Json × List Char)
  | 0, _ => none
  | Nat.succ fuel, s =>
    match s with
    | [] => none
    | c :: rest =>
      if c = '"' then
        match parse_string_rest rest with
        | some (cs, r) => some (Json.str cs, r)
        | none => none
      else if c = '[' then parse_array_body fuel (skip_ws rest)
      else if c = lbrace then parse_obj_body fuel (skip_ws rest)
      else if c = 't' then
        match rest with
        | 'r' :: 'u' :: 'e' :: r => some (Json.bool true, r)
        | _ => none
      else if c = 'f' then
        match rest with
        | 'a' :: 'l' :: 's' :: 'e' :: r => some (Json.bool false, r)
        | _ => none
      else if c = 'n' then
        match rest with
        | 'u' :: 'l' :: 'l' :: r => some (Json.null, r)
        | _ => none
      else if c = '-' ∨ c.isDigit then parse_number s
      else none

/-- Array body after the opening bracket and whitespace. -/
def parse_array_body : Nat → List Char → Option (Json × List Char)
  | 0, _ => none
  | Nat.succ fuel, s =>
    match s with
    | ']' :: r => some (Json.arr [], r)
    | _ =>
      match parse_array_items fuel s with
      | some (xs, r) => some (Json.arr xs, r)
      | none => none

/-- One or more comma-separated array items up to the closing bracket. -/
def parse_array_items : Nat → List Char → Option (List Json × List Char)
  | 0, _ => none
  | Nat.succ fuel, s =>
    match parse_value fuel (skip_ws s) with
    | some (v, r) =>
      match skip_ws r with
      | ',' :: r2 =>
        match parse_array_items fuel r2 with
        | some (vs, r3) => some (v :: vs, r3)
        | none => none
      | ']' :: r2 => some ([v], r2)
      | _ => none
    | none => none

/-- Object body after the opening brace and whitespace. -/
def parse_obj_body : Nat → List Char → Option (Json × List Char)
  | 0, _ => none
  | Nat.succ fuel, s =>
    match s with
    | c :: r =>
      if c = rbrace then some (Json.obj [], r)
      else
        match parse_obj_items fuel s with
        | some (kvs, r2) =>
            some (Json.obj (kvs.foldl (fun acc p => obj_insert acc p.1 p.2) []), r2)
        | none => none
    | [] => none

/-- One or more comma-separated `"key": value` members up to the closing brace. -/
def parse_obj_items : Nat → List Char → Option (List (List Char × Json) × List Char)
  | 0, _ => none
  | Nat.succ fuel, s =>
    match s with
    | '"' :: r1 =>
      match parse_string_rest r1 with
      | some (k, r2) =>
        match skip_ws r2 with
        | ':' :: r3 =>
          match parse_value fuel (skip_ws r3) with
          | some (v, r4) =>
            match skip_ws r4 with
            | ',' :: r5 =>
              match parse_obj_items fuel (skip_ws r5) with
              | some (kvs, r6) => some ((k, v) :: kvs, r6)
              | none => none
            | c :: r5 => if c = rbrace then some ([(k, v)], r5) else none
            | [] => none
          | none => none
        | _ => none
      | none => none
    | _ => none

end

/-- Python `json.loads`: one JSON document with surrounding whitespace. -/
def json_loads (s : List Char) : Option Json :=
  match parse_value (2 * s.length + 2) (skip_ws s) with
  | some (v, rest) => if (skip_ws rest).isEmpty then some v else none
  | none => none

/-- Indentation at nesting level `lv` for `json.dumps(x, indent=2)`. -/
def dump_indent (lv : Nat) : List Char := List.replicate (2 * lv) ' '

def hex_digit (n : Nat) : Char :=
  if n < 10 then Char.ofNat (48 + n) else Char.ofNat (87 + n)

def hex4 (n : Nat) : List Char :=
  [hex_digit (n / 4096 % 16), hex_digit (n / 256 % 16), hex_digit (n / 16 % 16), hex_digit (n % 16)]

/-- `json.dumps` escaping of one character (default `ensure_ascii=True`). -/
def json_escape_char (c : Char) : List Char :=
  if c = '"' then ['\\', '"']
  else if c = '\\' then ['\\', '\\']
  else if c = '\n' then ['\\', 'n']
  else if c = '\r' then ['\\', 'r']
  else if c = '\t' then ['\\', 't']
  else if c = Char.ofNat 8 then ['\\', 'b']
  else if c = Char.ofNat 12 then ['\\', 'f']
  else if c.toNat < 32 ∨ 127 < c.toNat then '\\' :: 'u' :: hex4 c.toNat
  else [c]

def json_escape_string (s : List Char) : List Char :=
  '"' :: (s.map json_escape_char).flatten ++ ['"']

mutual

/-- Python `json.dumps(x, indent=2)` at nesting level `lv`. -/
def json_dumps_val : Json → Nat → List Char
  | .null, _ => "null".toList
  | .bool true, _ => "true".toList
  | .bool false, _ => "false".toList
  | .num m, _ => (toString m).toList
  | .str s, _ => json_escape_string s
  | .arr [], _ => "[]".toList
  | .arr (x :: xs), lv =>
      '[' :: '\n' :: (dump_indent (lv + 1) ++ json_dumps_val x (lv + 1) ++
        json_dumps_arr_items xs (lv + 1)) ++ '\n' :: dump_indent lv ++ "]".toList
  | .obj [], _ => [lbrace, rbrace]
  | .obj ((k, v) :: kvs), lv =>
      lbrace :: '\n' :: (dump_indent (lv + 1) ++ json_escape_string k ++ ':' :: ' ' ::
        json_dumps_val v (lv + 1) ++ json_dumps_obj_items kvs (lv + 1)) ++
        '\n' :: dump_indent lv ++ [rbrace]

/-- The items of a dumped array after the first, each with its leading comma. -/
def json_dumps_arr_items : List Json → Nat → List Char
  | [], _ => []
  | x :: xs, lv =>
      ',' :: '\n' :: (dump_indent lv ++ json_dumps_val x lv) ++ json_dumps_arr_items xs lv

/-- The members of a dumped object after the first, each with its leading comma. -/
def json_dumps_obj_items : List (List Char × Json) → Nat → List Char
  | [], _ => []
  | (k, v) :: kvs, lv =>
      ',' :: '\n' :: (dump_indent lv ++ json_escape_string k ++ ':' :: ' ' ::
        json_dumps_val v lv) ++ json_dumps_obj_items kvs lv

end

/-- Python `json.dumps(x, indent=2)`. -/
def json_dumps (j : Json) (lv : Nat) : List Char := json_dumps_val j lv

/-- The bracket-slice extraction applied to each classification response in
`main` (src/app.py lines 150-153 and 163-166): slice from the first `[` to the
last `]` inclusive, then `json.loads`; any parse failure is caught. -/
def extract_json_array (s : List Char) : Option Json :=
  let start := py_find '[' s
  let e := py_rfind ']' s + 1
  if start ≠ -1 ∧ e ≠ -1 then json_loads (py_slice s start.toNat e.toNat) else none

/-- The flashpoint-pass state update (src/app.py lines 147-155): the state is
reassigned only when the response is truthy and the extracted slice parses;
the enclosing `try` otherwise leaves the previous value. -/
def pass_update (old : Json) (response : Option (List Char)) : Json :=
  match response with
  | none => old
  | some s =>
      if s.isEmpty then old
      else
        match extract_json_array s with
        | some v => v
        | none => old

/-- The zone-pass state update (src/app.py lines 160-168), same pattern with a
`None`-initialised state variable. -/
def pz_update (old : Option Json) (response : Option (List Char)) : Option Json :=
  match response with
  | none => old
  | some s =>
      if s.isEmpty then old
      else
        match extract_json_array s with
        | some v => some v
        | none => old

/-- One chat message of `st.session_state.messages`. -/
structure Msg where
  role : List Char
  content : List Char
deriving DecidableEq

/-- `"\\n".join(f"{m['role']}: {m['content']}" ...)` — note the separator in the
source is the two-character sequence backslash-n, not a newline. -/
def chat_history_str (messages : List Msg) : List Char :=
  join_with ("\\n".toList) (messages.map fun m => m.role ++ ':' :: ' ' :: m.content)

def MODEL_NAME : List Char := "gpt-oss:20b".toList

def DATA_FILE : List Char := "output.jsonl".toList

/-- The request body of `query_ollama` (src/app.py lines 26-30). -/
structure OllamaPayload where
  model : List Char
  prompt : List Char
  stream : Bool

def ollama_payload (prompt model : List Char) : OllamaPayload :=
  ⟨model, prompt, false⟩

/-- Outcome of the single `requests.post` call: a raised
`requests.exceptions.RequestException`, or a response with an HTTP status and a
parsed JSON body. -/
inductive TransportOutcome where
  | request_exc : TransportOutcome
  | response (status : Nat) (body : Json) : TransportOutcome

/-- `requests.Response.raise_for_status` raises exactly for 4xx and 5xx. -/
def raise_for_status_raises (status : Nat) : Bool :=
  400 ≤ status ∧ status < 600

/-- `query_ollama` (src/app.py lines 24-37): one synchronous call; on a raised
`RequestException` (transport error, or `raise_for_status` on 4xx/5xx) the
error is reported via `st.error` and `None` is returned; otherwise
`response.json().get("response", "")`. -/
def query_ollama (prompt : List Char) (model : List Char) (t : TransportOutcome) : Option Json :=
  let _payload := ollama_payload prompt model
  match t with
  | .request_exc => none
  | .response status body =>
      if raise_for_status_raises status then none
      else some ((dict_get body ("response".toList)).getD (Json.str []))

/-- Result of `load_data`: a returned list (with whether `st.error` was shown),
or an uncaught exception escaping the function. -/
inductive LoadOutcome where
  | ok (data : List Json) (error_reported : Bool) : LoadOutcome
  | exc : LoadOutcome
deriving DecidableEq

/-- The line loop of `load_data` (src/app.py lines 15-18): each non-blank line
is parsed with `json.loads`; a parse failure raises out of the loop. -/
def load_data_lines : List (List Char) → List Json → Option (List Json)
  | [], acc => some acc.reverse
  | l :: ls, acc =>
      if (py_strip l).isEmpty then load_data_lines ls acc
      else
        match json_loads l with
        | some v => load_data_lines ls (v :: acc)
        | none => none

/-- `load_data` (src/app.py lines 11-22): `file` is `none` when opening
`DATA_FILE` raises `FileNotFoundError`, else the file's lines.  Only
`FileNotFoundError` is caught; a `json.JSONDecodeError` escapes. -/
def load_data (file : Option (List (List Char))) : LoadOutcome :=
  match file with
  | none => .ok [] true
  | some lines =>
      match load_data_lines lines [] with
      | some data => .ok data false
      | none => .exc

/-- `get_flashpoint_prompt` (src/app.py lines 39-68). -/
def get_flashpoint_prompt (history : List Char) (data_context : List Json) : List Char :=
  "\nYou are an expert analyst.\nHere is a list of potential ".toList
  ++ apos :: "Flashpoints".toList ++ apos :: " with their IDs and titles:\n".toList
  ++ json_dumps (Json.arr data_context) 0
  ++ "\n\nBelow is a conversation history between a User and an Assistant:\n".toList
  ++ history
  ++ "\n\nTask:\nIdentify the top 3 most likely Flashpoints that the User is facing based on the conversation.\nFor each shortlisted Flashpoint, provide:\n1. The Flashpoint ID (srno).\n2. The Title.\n3. A Likelihood Score (1 to 5, where 5 is highest).\n4. A brief explanation for the score.\n\nOutput Format (JSON):\n[\n  \x7b\n    \"srno\": \"FPx\",\n    \"title\": \"...\",\n    \"zone\": \"...\",\n    \"score\": 5,\n    \"explanation\": \"...\"\n  \x7d,\n  ...\n]\nReturn ONLY the JSON array.\n".toList

/-- The key of the zone attribute. -/
def zone_key : List Char := "zone".toList

/-- The deduplicated truthy zone values of `get_process_zone_prompt`
(src/app.py line 72): `list(set(item['zone'] for item in data_context if
item.get('zone')))`.  `list(set(...))` returns the distinct elements in an
arbitrary order; theorems about it compare membership only. -/
def get_process_zone_zones (data_context : List Json) : List Json :=
  (data_context.filterMap fun item =>
    match dict_get item zone_key with
    | some v => if truthy v then some v else none
    | none => none).dedup

/-- `get_process_zone_prompt` (src/app.py lines 70-98). -/
def get_process_zone_prompt (history : List Char) (data_context : List Json) : List Char :=
  "\nYou are an expert analyst.\nThe available ".toList
  ++ apos :: "Process Zones".toList ++ apos :: " are:\n".toList
  ++ json_dumps (Json.arr (get_process_zone_zones data_context)) 0
  ++ "\n\nBelow is a conversation history between a User and an Assistant:\n".toList
  ++ history
  ++ "\n\nTask:\nDetermine which Process Zone the User is most likely talking about or currently in.\nProvide:\n1. The Process Zone Name.\n2. A Likelihood Score (1 to 5).\n3. A brief explanation.\n\nOutput Format (JSON):\n[\n\x7b\n  \"zone\": \"...\",\n  \"score\": 5,\n  \"explanation\": \"...\"\n\x7d\n]\nReturn ONLY the JSON object.\n".toList

def no_data_str : List Char := "No flashpoint data available.".toList

def context_instruction_shortlist : List Char :=
  "Based on the analysis, the user is likely facing one of the following Flashpoints. Use this list to ask specific clarifying questions.".toList

def context_instruction_full : List Char :=
  "Analyze the conversation against the full list of Flashpoints below.".toList

/-- `[item['title'] for item in st.session_state.data if 'title' in item]`
(src/app.py line 186). -/
def flashpoint_titles (data : List Json) : List Json :=
  data.filterMap fun item => dict_get item ("title".toList)

/-- The context selection for the reply prompt (src/app.py lines 177-191):
`(flashpoints_str, context_instruction)` by priority shortlist, full dataset
titles, no data. -/
def reply_context (flashpoints : Json) (data : List Json) : List Char × List Char :=
  if truthy flashpoints then
    (json_dumps flashpoints 0, context_instruction_shortlist)
  else if !data.isEmpty then
    (json_dumps (Json.arr (flashpoint_titles data)) 0, context_instruction_full)
  else
    (no_data_str, [])

/-- The `chat_prompt` f-string template (src/app.py lines 195-217). -/
def build_chat_prompt (context_instruction flashpoints_str history : List Char) : List Char :=
  "\nYou are an expert analyst and investigator.\nYour goal is to identify which specific ".toList
  ++ apos :: "Flashpoint".toList ++ apos :: " (problem scenario) the user is facing.\n\n".toList
  ++ context_instruction
  ++ "\n\nCurrent Shortlisted/Potential Flashpoints:\n".toList
  ++ flashpoints_str
  ++ "\n\nInstructions:\n1. Analyze the user".toList
  ++ apos :: "s input and the conversation history.\n2. If the user".toList
  ++ apos :: "s situation is unclear or could match multiple flashpoints, ask a single, specific clarifying question to narrow it down.\n3. Do NOT provide solutions, advice, or recommendations. Your ONLY job is to identify the problem.\n4. Do NOT list the flashpoints to the user in chat message.\n5. DO NOT tell user what are the identified Flashpoints\n6. Keep your responses concise and professional.\n7. Once Flashpoint identification is done, just say Thank you - we shall provide solution in upcoming version. DO NOT TELL WHICH FLASHPOINT IS IDENTIFIED\n\nConversation History:\n".toList
  ++ history
  ++ "\n\nAssistant:\n".toList

/-- The per-session state held in `st.session_state`. -/
structure SessionState where
  data : List Json
  messages : List Msg
  flashpoints : Json
  process_zone : Option Json
deriving DecidableEq

/-- The initial session state (src/app.py lines 105-116). -/
def initial_state (data : List Json) : SessionState :=
  ⟨data, [], Json.arr [], none⟩

/-- The reply prompt built at src/app.py lines 176-217 from the state reached
after the user message was appended and the classification passes ran. -/
def turn_reply_prompt (st : SessionState) : List Char :=
  let ctx := reply_context st.flashpoints st.data
  build_chat_prompt ctx.2 ctx.1 (chat_history_str st.messages)

def error_reply : List Char := "Error generating response.".toList

/-- The reply text rendered into the chat view (src/app.py lines 219-225):
the generated text, or the literal placeholder when the completion result is
falsy.  Only the truthy case is also appended to the history. -/
def rendered_reply (response : Option (List Char)) : List Char :=
  match response with
  | some t => if t.isEmpty then error_reply else t
  | none => error_reply

/-- The three completion results of one turn, as returned by `query_ollama`
(text, or `none` for a failed call).  The calls are a network effect, so the
results are inputs of the turn. -/
structure TurnOracle where
  fp_response : Option (List Char)
  pz_response : Option (List Char)
  reply_response : Option (List Char)
deriving DecidableEq

/-- One user turn of `main` (src/app.py lines 130-230): append the user
message; when the dataset is truthy run the flashpoint pass then the zone pass
(prompts `get_flashpoint_prompt` / `get_process_zone_prompt` over the updated
history); build the reply prompt (`turn_reply_prompt`) and append the reply to
the history only when the reply completion result is truthy. -/
def run_turn (st : SessionState) (user_msg : List Char) (o : TurnOracle) : SessionState :=
  let msgs1 := st.messages ++ [⟨"user".toList, user_msg⟩]
  let fps1 := if st.data.isEmpty then st.flashpoints else pass_update st.flashpoints o.fp_response
  let pz1 := if st.data.isEmpty then st.process_zone else pz_update st.process_zone o.pz_response
  let msgs2 :=
    match o.reply_response with
    | some t => if t.isEmpty then msgs1 else msgs1 ++ [⟨"assistant".toList, t⟩]
    | none => msgs1
  ⟨st.data, msgs2, fps1, pz1⟩

/-- A whole session: fold `run_turn` over a sequence of user turns. -/
def run_turns (st : SessionState) (turns : List (List Char × TurnOracle)) : SessionState :=
  turns.foldl (fun s t => run_turn s t.1 t.2) st

/-- The successful-parse outcome of one classification pass in one turn, `none`
when the pass was skipped, its completion failed, or extraction failed. -/
def parse_outcome (data : List Json) (response : Option (List Char)) : Option Json :=
  if data.isEmpty then none
  else
    match response with
    | none => none
    | some s => if s.isEmpty then none else extract_json_array s

/-- The most recent `some` in a list of per-turn outcomes (later entries win). -/
def last_parse : List (Option Json) → Option Json
  | [] => none
  | o :: rest =>
      match last_parse rest with
      | some v => some v
      | none => o

/-- Modelled from the spec words of C6: the deduplicated set of `zone` values
taken across all dataset records (no truthiness filter). -/
def spec_zone_values (data : List Json) : List Json :=
  (data.filterMap fun item => dict_get item zone_key).dedup

/-! ### Helper lemmas about the string primitives -/

theorem find_idx_eq_none_iff (c : Char) (s : List Char) : find_idx c s = none ↔ c ∉ s := by
  induction s with
  | nil => simp [find_idx]
  | cons x xs ih =>
    by_cases h : x = c
    · simp [find_idx, h]
    · simp [find_idx, h, ih, Ne.symm h]

theorem rfind_idx_eq_none_iff (c : Char) (s : List Char) : rfind_idx c s = none ↔ c ∉ s := by
  induction s with
  | nil => simp [rfind_idx]
  | cons x xs ih =>
    cases hr : rfind_idx c xs with
    | some i =>
      have hmem : c ∈ xs := by
        by_contra hn
        rw [ih.mpr hn] at hr
        exact Option.noConfusion hr
      simp only [rfind_idx, hr]
      simp [hmem]
    | none =>
      have hxs : c ∉ xs := ih.mp hr
      by_cases hx : x = c
      · simp [rfind_idx, hr, hx]
      · simp [rfind_idx, hr, hx, hxs, Ne.symm hx]

theorem find_idx_lt_length (c : Char) (s : List Char) (i : Nat) (h : find_idx c s = some i) :
    i < s.length := by
  induction s generalizing i with
  | nil => simp [find_idx] at h
  | cons x xs ih =>
    by_cases hx : x = c
    · simp only [find_idx, hx, if_true, Option.some.injEq] at h
      simp only [List.length_cons]
      omega
    · simp only [find_idx, hx, if_false, Option.map_eq_some'] at h
      obtain ⟨j, hj, hji⟩ := h
      have := ih j hj
      simp only [List.length_cons]
      omega

theorem rfind_idx_lt_length (c : Char) (s : List Char) (i : Nat) (h : rfind_idx c s = some i) :
    i < s.length := by
  induction s generalizing i with
  | nil => simp [rfind_idx] at h
  | cons x xs ih =>
    cases hr : rfind_idx c xs with
    | some j =>
      simp only [rfind_idx, hr, Option.some.injEq] at h
      have := ih j hr
      simp only [List.length_cons]
      omega
    | none =>
      by_cases hx : x = c
      · simp only [rfind_idx, hr, hx, if_true, Option.some.injEq] at h
        simp only [List.length_cons]
        omega
      · simp only [rfind_idx, hr, hx, if_false] at h
        exact Option.noConfusion h

theorem find_idx_append_of_mem (c : Char) (s q : List Char) (h : c ∈ s) :
    find_idx c (s ++ q) = find_idx c s := by
  induction s with
  | nil => simp at h
  | cons x xs ih =>
    by_cases hx : x = c
    · simp [find_idx, hx]
    · have hm : c ∈ xs := by
        cases h with
        | head => exact absurd rfl hx
        | tail _ h => exact h
      simp [find_idx, hx, ih hm]

theorem find_idx_append_of_not_mem (c : Char) (p r : List Char) (h : c ∉ p) :
    find_idx c (p ++ r) = (find_idx c r).map (fun i => p.length + i) := by
  induction p with
  | nil => simp [Option.map_id']
  | cons x xs ih =>
    have hx : x ≠ c := fun hc => h (by simp [hc])
    have hm : c ∉ xs := fun hc => h (by simp [hc])
    cases hfr : find_idx c r with
    | none =>
      have hn : find_idx c (xs ++ r) = none := by
        rw [ih hm, hfr]
        rfl
      simp [find_idx, hx, hn, hfr]
    | some i =>
      have hs : find_idx c (xs ++ r) = some (xs.length + i) := by
        rw [ih hm, hfr]
        rfl
      simp only [List.cons_append, find_idx, hx, if_false, List.append_eq, hs, hfr]
      simp only [Option.map_some', List.length_cons]
      congr 1
      omega

theorem rfind_idx_append_of_not_mem (c : Char) (l q : List Char) (h : c ∉ q) :
    rfind_idx c (l ++ q) = rfind_idx c l := by
  induction l with
  | nil => simp [(rfind_idx_eq_none_iff c q).mpr h, rfind_idx]
  | cons x xs ih => simp only [List.cons_append, rfind_idx, List.append_eq, ih]

theorem rfind_idx_append_of_mem (c : Char) (p r : List Char) (h : c ∈ r) :
    rfind_idx c (p ++ r) = (rfind_idx c r).map (fun i => p.length + i) := by
  have hex : ∃ i, rfind_idx c r = some i := by
    cases hr : rfind_idx c r with
    | some i => exact ⟨i, rfl⟩
    | none => exact absurd ((rfind_idx_eq_none_iff c r).mp hr) (by simp [h])
  obtain ⟨i, hi⟩ := hex
  induction p with
  | nil => simp [hi]
  | cons x xs ih =>
    have hxs : rfind_idx c (xs ++ r) = some (xs.length + i) := by
      rw [ih, hi]
      simp
    simp only [List.cons_append, rfind_idx, List.append_eq, hxs, hi]
    simp only [Option.map_some', List.length_cons]
    congr 1
    omega

theorem take_append_add (p r : List Char) (n : Nat) :
    (p ++ r).take (p.length + n) = p ++ r.take n := by
  induction p with
  | nil => simp
  | cons x xs ih => simpa [Nat.succ_add] using ih

theorem drop_append_add (p r : List Char) (n : Nat) :
    (p ++ r).drop (p.length + n) = r.drop n := by
  induction p with
  | nil => simp
  | cons x xs ih =>
    simp only [List.cons_append, List.length_cons, Nat.succ_add, List.drop_succ_cons]
    exact ih

theorem take_append_of_le (s q : List Char) (n : Nat) (h : n ≤ s.length) :
    (s ++ q).take n = s.take n := by
  induction s generalizing n with
  | nil =>
    simp only [List.length_nil, Nat.le_zero] at h
    subst h
    simp
  | cons x xs ih =>
    cases n with
    | zero => simp
    | succ n =>
      simp only [List.cons_append, List.take_succ_cons]
      rw [ih n (by simpa using h)]

/-! ### The extraction pass -/

theorem json_loads_nil : json_loads [] = none := rfl

theorem extract_none_of_no_lbracket (s : List Char) (h : '[' ∉ s) :
    extract_json_array s = none := by
  have hf : find_idx '[' s = none := (find_idx_eq_none_iff _ s).mpr h
  simp [extract_json_array, py_find, hf]

theorem extract_none_of_no_rbracket (s : List Char) (h : ']' ∉ s) :
    extract_json_array s = none := by
  have hr : rfind_idx ']' s = none := (rfind_idx_eq_none_iff _ s).mpr h
  by_cases hl : '[' ∈ s
  · cases hfa : find_idx '[' s with
    | none => exact absurd ((find_idx_eq_none_iff _ s).mp hfa) (by simp [hl])
    | some a =>
      have h1 : py_find '[' s = (a : Int) := by simp [py_find, hfa]
      have h2 : py_rfind ']' s = -1 := by simp [py_rfind, hr]
      have hcond : ((a : Int) ≠ -1 ∧ (-1 : Int) + 1 ≠ -1) := by
        constructor <;> omega
      simp only [extract_json_array, h1, h2, if_pos hcond]
      have hsl : py_slice s ((a : Int)).toNat ((-1 : Int) + 1).toNat = [] := by
        have : ((-1 : Int) + 1).toNat = 0 := by rfl
        simp [py_slice, this]
      rw [hsl]
      rfl
  · exact extract_none_of_no_lbracket s hl

theorem mem_of_extract_some (s : List Char) (v : Json) (h : extract_json_array s = some v) :
    '[' ∈ s ∧ ']' ∈ s := by
  constructor
  · by_contra hn
    rw [extract_none_of_no_lbracket s hn] at h
    exact Option.noConfusion h
  · by_contra hn
    rw [extract_none_of_no_rbracket s hn] at h
    exact Option.noConfusion h

theorem extract_json_array_append (p s q : List Char)
    (hp : '[' ∉ p) (hq : ']' ∉ q) (hl : '[' ∈ s) (hr : ']' ∈ s) :
    extract_json_array (p ++ s ++ q) = extract_json_array s := by
  obtain ⟨a, hfa⟩ : ∃ a, find_idx '[' s = some a := by
    cases hfa : find_idx '[' s with
    | some a => exact ⟨a, rfl⟩
    | none => exact absurd ((find_idx_eq_none_iff _ s).mp hfa) (by simp [hl])
  obtain ⟨b, hrb⟩ : ∃ b, rfind_idx ']' s = some b := by
    cases hrb : rfind_idx ']' s with
    | some b => exact ⟨b, rfl⟩
    | none => exact absurd ((rfind_idx_eq_none_iff _ s).mp hrb) (by simp [hr])
  have ha_lt := find_idx_lt_length '[' s a hfa
  have hb_lt := rfind_idx_lt_length ']' s b hrb
  have hfind : find_idx '[' (p ++ s ++ q) = some (p.length + a) := by
    rw [List.append_assoc, find_idx_append_of_not_mem '[' p (s ++ q) hp,
      find_idx_append_of_mem '[' s q hl, hfa]
    rfl
  have hrfind : rfind_idx ']' (p ++ s ++ q) = some (p.length + b) := by
    rw [show p ++ s ++ q = (p ++ s) ++ q by rw [List.append_assoc],
      rfind_idx_append_of_not_mem ']' (p ++ s) q hq,
      rfind_idx_append_of_mem ']' p s hr, hrb]
    rfl
  have h1 : py_find '[' (p ++ s ++ q) = ((p.length + a : Nat) : Int) := by
    unfold py_find
    rw [hfind]
  have h2 : py_rfind ']' (p ++ s ++ q) = ((p.length + b : Nat) : Int) := by
    unfold py_rfind
    rw [hrfind]
  have h1s : py_find '[' s = ((a : Nat) : Int) := by
    unfold py_find
    rw [hfa]
  have h2s : py_rfind ']' s = ((b : Nat) : Int) := by
    unfold py_rfind
    rw [hrb]
  have hc1 : (((p.length + a : Nat) : Int) ≠ -1 ∧ ((p.length + b : Nat) : Int) + 1 ≠ -1) := by
    constructor <;> omega
  have hc2 : (((a : Nat) : Int) ≠ -1 ∧ ((b : Nat) : Int) + 1 ≠ -1) := by
    constructor <;> omega
  simp only [extract_json_array, h1, h2, h1s, h2s, if_pos hc1, if_pos hc2]
  have ht1 : (((p.length + a : Nat) : Int)).toNat = p.length + a := by omega
  have ht2 : ((((p.length + b : Nat) : Int)) + 1).toNat = p.length + (b + 1) := by omega
  have ht3 : (((a : Nat) : Int)).toNat = a := by omega
  have ht4 : ((((b : Nat) : Int)) + 1).toNat = b + 1 := by omega
  rw [ht1, ht2, ht3, ht4]
  have hslice : py_slice (p ++ s ++ q) (p.length + a) (p.length + (b + 1)) = py_slice s a (b + 1) := by
    unfold py_slice
    rw [List.append_assoc, take_append_add p (s ++ q) (b + 1),
      take_append_of_le s q (b + 1) (by omega)]
    rw [drop_append_add p (s.take (b + 1)) a]
  rw [hslice]

/-! ### Substring lemmas for the prompt templates -/

theorem starts_with_append_self (pat r : List Char) : starts_with pat (pat ++ r) = true := by
  induction pat with
  | nil => rfl
  | cons p ps ih => simp [starts_with, ih]

theorem contains_sub_cons (pat : List Char) (c : Char) (r : List Char)
    (h : contains_sub pat r = true) : contains_sub pat (c :: r) = true := by
  simp [contains_sub, h]

theorem contains_sub_append_right (pat a r : List Char) (h : contains_sub pat r = true) :
    contains_sub pat (a ++ r) = true := by
  induction a with
  | nil => simpa
  | cons x xs ih => exact contains_sub_cons pat x (xs ++ r) ih

theorem contains_sub_self_append (pat r : List Char) : contains_sub pat (pat ++ r) = true := by
  cases pat with
  | nil =>
    cases r with
    | nil => rfl
    | cons c rest => simp [contains_sub, starts_with]
  | cons p ps =>
    have h := starts_with_append_self (p :: ps) r
    simp only [List.cons_append] at h ⊢
    simp [contains_sub, h]

/-! ### Projections of one turn -/

theorem run_turn_data (st : SessionState) (m : List Char) (o : TurnOracle) :
    (run_turn st m o).data = st.data := by
  unfold run_turn
  rfl

theorem run_turn_flashpoints (st : SessionState) (m : List Char) (o : TurnOracle) :
    (run_turn st m o).flashpoints = (parse_outcome st.data o.fp_response).getD st.flashpoints := by
  cases hd : st.data.isEmpty with
  | true => simp [run_turn, parse_outcome, hd]
  | false =>
    cases ho : o.fp_response with
    | none => simp [run_turn, parse_outcome, pass_update, hd, ho]
    | some s =>
      cases hse : s.isEmpty with
      | true => simp [run_turn, parse_outcome, pass_update, hd, ho, hse]
      | false =>
        cases hex : extract_json_array s <;>
          simp [run_turn, parse_outcome, pass_update, hd, ho, hse, hex]

theorem run_turn_process_zone (st : SessionState) (m : List Char) (o : TurnOracle) :
    (run_turn st m o).process_zone =
      (match parse_outcome st.data o.pz_response with
       | some v => some v
       | none => st.process_zone) := by
  cases hd : st.data.isEmpty with
  | true => simp [run_turn, parse_outcome, hd]
  | false =>
    cases ho : o.pz_response with
    | none => simp [run_turn, parse_outcome, pz_update, hd, ho]
    | some s =>
      cases hse : s.isEmpty with
      | true => simp [run_turn, parse_outcome, pz_update, hd, ho, hse]
      | false =>
        cases hex : extract_json_array s <;>
          simp [run_turn, parse_outcome, pz_update, hd, ho, hse, hex]

/-! ### Claim theorems -/

/-- C1: over any sequence of user turns, the flashpoint shortlist state equals
the value of the most recent successful parse of a flashpoint-pass completion
response (its initial value when none succeeded), and the process-zone state
likewise; a null response, a falsy response, or an extraction failure leaves
the previous value. -/
theorem state_reflects_last_successful_parse (st : SessionState)
    (turns : List (List Char × TurnOracle)) :
    (run_turns st turns).flashpoints =
      (last_parse (turns.map fun t => parse_outcome st.data t.2.fp_response)).getD
        st.flashpoints ∧
    (run_turns st turns).process_zone =
      (match last_parse (turns.map fun t => parse_outcome st.data t.2.pz_response) with
       | some v => some v
       | none => st.process_zone) := by
  induction turns generalizing st with
  | nil => exact ⟨rfl, rfl⟩
  | cons t rest ih =>
    have hstep : run_turns st (t :: rest) = run_turns (run_turn st t.1 t.2) rest := rfl
    have hdata : (run_turn st t.1 t.2).data = st.data := run_turn_data st t.1 t.2
    have h := ih (run_turn st t.1 t.2)
    rw [hdata] at h
    constructor
    · rw [hstep, h.1, run_turn_flashpoints st t.1 t.2]
      simp only [List.map_cons, last_parse]
      cases last_parse (rest.map fun t => parse_outcome st.data t.2.fp_response) with
      | some v => rfl
      | none => rfl
    · rw [hstep, h.2, run_turn_process_zone st t.1 t.2]
      simp only [List.map_cons, last_parse]
      cases last_parse (rest.map fun t => parse_outcome st.data t.2.pz_response) with
      | some v => rfl
      | none => rfl

/-- C2 counterexample: the claim fails when the surrounding prose itself
contains a bracket.  For prefix `"["`, array text `"[1]"` and suffix `"x"`,
the slice from the first `[` to the last `]` is `"[[1]"`, which does not
parse, so extraction returns nothing instead of the parsed array — even
though `"[1]"` alone extracts to the array `[1]`. -/
theorem extract_embedded_array_cex :
    extract_json_array ("[1]".toList) = some (Json.arr [Json.num 1]) ∧
    extract_json_array ("[".toList ++ "[1]".toList ++ "x".toList) = none := by
  constructor
  · decide
  · decide

/-- C2 (amended): for a well-formed JSON array embedded in surrounding prose,
extraction returns the parsed array and is independent of the prose content,
provided the prose before the array contains no `[` and the prose after it
contains no `]` (the counterexample shows the unrestricted claim is false). -/
theorem extract_embedded_array (p s q : List Char) (v : Json)
    (hp : '[' ∉ p) (hq : ']' ∉ q) (hs : extract_json_array s = some v) :
    extract_json_array (p ++ s ++ q) = some v := by
  obtain ⟨hl, hr⟩ := mem_of_extract_some s v hs
  rw [extract_json_array_append p s q hp hq hl hr, hs]

theorem extract_embedded_array_witness :
    ('[' ∉ ("Result: ".toList)) ∧ (']' ∉ (" done.".toList)) ∧
    extract_json_array ("Result: ".toList ++ "[1, 2]".toList ++ " done.".toList) =
      some (Json.arr [Json.num 1, Json.num 2]) :=
  ⟨by decide, by decide,
    extract_embedded_array ("Result: ".toList) ("[1, 2]".toList) (" done.".toList)
      (Json.arr [Json.num 1, Json.num 2]) (by decide) (by decide) (by decide)⟩

/-- C3: when the raw completion text contains no `[` or no `]`, extraction
produces no parsed value (in the missing-`]` case because `rfind` returns `-1`,
the dead `end != -1` check passes, and `json.loads` of the empty slice raises),
and both state updates keep the pre-existing value. -/
theorem extract_missing_bracket_keeps_state (s : List Char)
    (h : '[' ∉ s ∨ ']' ∉ s) :
    extract_json_array s = none ∧
    (∀ old : Json, pass_update old (some s) = old) ∧
    (∀ old : Option Json, pz_update old (some s) = old) := by
  have hnone : extract_json_array s = none := by
    cases h with
    | inl h => exact extract_none_of_no_lbracket s h
    | inr h => exact extract_none_of_no_rbracket s h
  refine ⟨hnone, fun old => ?_, fun old => ?_⟩
  · cases hse : s.isEmpty <;> simp [pass_update, hnone, hse]
  · cases hse : s.isEmpty <;> simp [pz_update, hnone, hse]

theorem extract_missing_bracket_keeps_state_witness :
    ('[' ∉ ("no brackets here".toList) ∨ ']' ∉ ("no brackets here".toList)) ∧
    extract_json_array ("no brackets here".toList) = none ∧
    pass_update (Json.arr [Json.num 7]) (some ("no brackets here".toList)) =
      Json.arr [Json.num 7] ∧
    pz_update (some (Json.num 3)) (some ("no brackets here".toList)) = some (Json.num 3) :=
  have h := extract_missing_bracket_keeps_state ("no brackets here".toList)
    (Or.inl (by decide))
  ⟨Or.inl (by decide), h.1, h.2.1 (Json.arr [Json.num 7]), h.2.2 (some (Json.num 3))⟩

/-- C4 counterexample: when the reply completion returns `None`, no message at
all is appended to the conversation history — the placeholder is only rendered
into the transient chat view (`message_placeholder.markdown`), not appended as
the claim states; and a returned empty string is likewise treated as a failure
(falsy), not appended as an assistant message. -/
theorem reply_failure_not_appended_cex :
    (run_turn (initial_state []) ("hi".toList) ⟨none, none, none⟩).messages =
      [⟨"user".toList, "hi".toList⟩] ∧
    (run_turn (initial_state []) ("hi".toList) ⟨none, none, some []⟩).messages =
      [⟨"user".toList, "hi".toList⟩] ∧
    rendered_reply none = error_reply := by
  refine ⟨by decide, by decide, rfl⟩

/-- C4 (amended): when the reply completion result is truthy text, that text is
appended to the conversation history as the assistant message; when it is null
or empty, the history gains no assistant message for that turn, and only the
rendered (non-persisted) reply shows the literal placeholder
`"Error generating response."`. -/
theorem reply_append_behavior (st : SessionState) (m : List Char) (o : TurnOracle) :
    (run_turn st m o).messages =
      (st.messages ++ [⟨"user".toList, m⟩]) ++
        (match o.reply_response with
         | some t => if t.isEmpty then [] else [⟨"assistant".toList, t⟩]
         | none => []) ∧
    rendered_reply none = error_reply ∧
    rendered_reply (some []) = error_reply ∧
    (∀ t : List Char, t.isEmpty = false → rendered_reply (some t) = t) := by
  refine ⟨?_, rfl, rfl, fun t ht => by simp [rendered_reply, ht]⟩
  unfold run_turn
  cases o.reply_response with
  | none => simp
  | some t => cases ht : t.isEmpty <;> simp [ht]

theorem reply_append_behavior_witness :
    (run_turn (initial_state []) ("hi".toList) ⟨none, none, some ("ok".toList)⟩).messages =
      ([] ++ [⟨"user".toList, "hi".toList⟩]) ++ [⟨"assistant".toList, "ok".toList⟩] ∧
    rendered_reply (some ("ok".toList)) = "ok".toList :=
  have h := reply_append_behavior (initial_state []) ("hi".toList) ⟨none, none, some ("ok".toList)⟩
  ⟨h.1, h.2.2.2 ("ok".toList) (by decide)⟩

/-- C7: when the dataset is empty, neither classification pass runs — the
shortlist and zone state are returned unchanged and the turn's result does not
depend on the flashpoint or zone completion results at all — and (for a falsy
shortlist, which is the only reachable case with an empty dataset) the reply
prompt's context is the no-data sentence; when the dataset is non-empty, the
zone pass runs after the flashpoint pass and its state update is independent
of the flashpoint outcome. -/
theorem dataset_gating (st : SessionState) (m : List Char) (o o2 : TurnOracle) :
    (st.data = [] →
      (run_turn st m o).flashpoints = st.flashpoints ∧
      (run_turn st m o).process_zone = st.process_zone ∧
      run_turn st m o = run_turn st m ⟨o2.fp_response, o2.pz_response, o.reply_response⟩ ∧
      (truthy st.flashpoints = false → reply_context st.flashpoints st.data = (no_data_str, []))) ∧
    (st.data ≠ [] →
      (run_turn st m o).flashpoints = pass_update st.flashpoints o.fp_response ∧
      (run_turn st m o).process_zone = pz_update st.process_zone o.pz_response) := by
  constructor
  · intro hd
    have hde : st.data.isEmpty = true := by simp [hd]
    refine ⟨by simp [run_turn, hde], by simp [run_turn, hde], by simp [run_turn, hde], ?_⟩
    intro hf
    simp [reply_context, hf, hd]
  · intro hd
    have hde : st.data.isEmpty = false := by simpa using hd
    exact ⟨by simp [run_turn, hde], by simp [run_turn, hde]⟩

theorem dataset_gating_witness :
    ((run_turn (initial_state []) ("hi".toList)
        ⟨some ("[1]".toList), some ("[2]".toList), none⟩).flashpoints =
      (initial_state []).flashpoints ∧
     (run_turn (initial_state []) ("hi".toList)
        ⟨some ("[1]".toList), some ("[2]".toList), none⟩).process_zone =
      (initial_state []).process_zone ∧
     reply_context (initial_state []).flashpoints (initial_state []).data = (no_data_str, [])) ∧
    ((run_turn (initial_state [Json.obj [("zone".toList, Json.str ("Finance".toList))]])
        ("hi".toList) ⟨none, some ("[7]".toList), none⟩).process_zone =
      pz_update none (some ("[7]".toList))) :=
  have hA := (dataset_gating (initial_state []) ("hi".toList)
    ⟨some ("[1]".toList), some ("[2]".toList), none⟩ ⟨none, none, none⟩).1 rfl
  have hB := (dataset_gating (initial_state [Json.obj [("zone".toList, Json.str ("Finance".toList))]])
    ("hi".toList) ⟨none, some ("[7]".toList), none⟩ ⟨none, none, none⟩).2 (by decide)
  ⟨⟨hA.1, hA.2.1, hA.2.2.2 rfl⟩, hB.2⟩

/-- C5 counterexample: the reply prompt embeds the whole conversation history,
so the full dataset's title list can occur in the prompt even when the
shortlist is non-empty — here the user's own message contains the dumped title
list verbatim, so the prompt does contain it, contradicting the claim's
"must NOT contain" part. -/
theorem reply_prompt_contains_titles_cex :
    truthy (Json.arr [Json.num 1]) = true ∧
    contains_sub
      (json_dumps (Json.arr (flashpoint_titles [Json.obj [("title".toList, Json.str ("T".toList))]])) 0)
      (turn_reply_prompt
        ⟨[Json.obj [("title".toList, Json.str ("T".toList))]],
         [⟨"user".toList, json_dumps (Json.arr [Json.str ("T".toList)]) 0⟩],
         Json.arr [Json.num 1], none⟩) = true := by
  constructor
  · rfl
  · decide

/-- C5 (amended): the reply prompt's context section is chosen by priority —
a truthy shortlist yields the shortlist's JSON dump (the title list is not
built in that branch, though its text can still occur elsewhere in the prompt,
e.g. quoted inside the conversation history); else a non-empty dataset yields
the dumped title list; else the no-data sentence — and the selected context is
contained in the built prompt. -/
theorem reply_prompt_context_selection (st : SessionState) :
    (truthy st.flashpoints = true →
      reply_context st.flashpoints st.data =
        (json_dumps st.flashpoints 0, context_instruction_shortlist) ∧
      contains_sub (json_dumps st.flashpoints 0) (turn_reply_prompt st) = true) ∧
    (truthy st.flashpoints = false → st.data ≠ [] →
      reply_context st.flashpoints st.data =
        (json_dumps (Json.arr (flashpoint_titles st.data)) 0, context_instruction_full) ∧
      contains_sub (json_dumps (Json.arr (flashpoint_titles st.data)) 0)
        (turn_reply_prompt st) = true) ∧
    (truthy st.flashpoints = false → st.data = [] →
      reply_context st.flashpoints st.data = (no_data_str, []) ∧
      contains_sub no_data_str (turn_reply_prompt st) = true) := by
  refine ⟨fun ht => ?_, fun ht hd => ?_, fun ht hd => ?_⟩
  · have hc : reply_context st.flashpoints st.data =
        (json_dumps st.flashpoints 0, context_instruction_shortlist) := by
      simp [reply_context, ht]
    refine ⟨hc, ?_⟩
    unfold turn_reply_prompt build_chat_prompt
    rw [hc]
    simp only [List.append_assoc, List.cons_append]
    repeat
      first
      | exact contains_sub_self_append _ _
      | apply contains_sub_cons
      | apply contains_sub_append_right
  · have hde : st.data.isEmpty = false := by simpa using hd
    have hc : reply_context st.flashpoints st.data =
        (json_dumps (Json.arr (flashpoint_titles st.data)) 0, context_instruction_full) := by
      simp [reply_context, ht, hde]
    refine ⟨hc, ?_⟩
    unfold turn_reply_prompt build_chat_prompt
    rw [hc]
    simp only [List.append_assoc, List.cons_append]
    repeat
      first
      | exact contains_sub_self_append _ _
      | apply contains_sub_cons
      | apply contains_sub_append_right
  · have hc : reply_context st.flashpoints st.data = (no_data_str, []) := by
      simp [reply_context, ht, hd]
    refine ⟨hc, ?_⟩
    unfold turn_reply_prompt build_chat_prompt
    rw [hc]
    simp only [List.append_assoc, List.cons_append]
    repeat
      first
      | exact contains_sub_self_append _ _
      | apply contains_sub_cons
      | apply contains_sub_append_right

theorem reply_prompt_context_selection_witness :
    contains_sub (json_dumps (Json.arr [Json.num 1]) 0)
      (turn_reply_prompt ⟨[], [], Json.arr [Json.num 1], none⟩) = true ∧
    contains_sub
      (json_dumps (Json.arr (flashpoint_titles [Json.obj [("title".toList, Json.str ("T".toList))]])) 0)
      (turn_reply_prompt
        ⟨[Json.obj [("title".toList, Json.str ("T".toList))]], [], Json.arr [], none⟩) = true ∧
    contains_sub no_data_str (turn_reply_prompt (initial_state [])) = true :=
  ⟨((reply_prompt_context_selection ⟨[], [], Json.arr [Json.num 1], none⟩).1 (by decide)).2,
   ((reply_prompt_context_selection
      ⟨[Json.obj [("title".toList, Json.str ("T".toList))]], [], Json.arr [], none⟩).2.1
      (by decide) (by decide)).2,
   ((reply_prompt_context_selection (initial_state [])).2.2 (by decide) rfl).2⟩

/-- A sample dataset of 5 records sharing 2 distinct zones, as in the spec's
testable property for the zone prompt. -/
def sample_dataset : List Json :=
  [Json.obj [("srno".toList, Json.str ("FP1".toList)), ("title".toList, Json.str ("A".toList)),
     ("zone".toList, Json.str ("Finance".toList))],
   Json.obj [("srno".toList, Json.str ("FP2".toList)), ("title".toList, Json.str ("B".toList)),
     ("zone".toList, Json.str ("Finance".toList))],
   Json.obj [("srno".toList, Json.str ("FP3".toList)), ("title".toList, Json.str ("C".toList)),
     ("zone".toList, Json.str ("HR".toList))],
   Json.obj [("srno".toList, Json.str ("FP4".toList)), ("title".toList, Json.str ("D".toList)),
     ("zone".toList, Json.str ("Finance".toList))],
   Json.obj [("srno".toList, Json.str ("FP5".toList)), ("title".toList, Json.str ("E".toList)),
     ("zone".toList, Json.str ("HR".toList))]]

/-- C6 counterexample: the generator filters on `item.get('zone')` truthiness,
so a record whose `zone` value is the empty string (a falsy value) is dropped
from the embedded zone set even though the empty string is one of the `zone`
values taken across all dataset records — the two sets differ. -/
theorem zone_set_falsy_zone_cex :
    Json.str [] ∈ spec_zone_values [Json.obj [("zone".toList, Json.str [])]] ∧
    Json.str [] ∉ get_process_zone_zones [Json.obj [("zone".toList, Json.str [])]] := by
  constructor
  · decide
  · decide

/-- C6 (amended): the zone set embedded in the zone-classification prompt is,
as a set (membership, order-independent), the deduplicated set of *truthy*
`zone` values across the dataset records: records with a missing, empty, or
otherwise falsy `zone` are excluded.  The object hypothesis reflects the data
model (Python's `item.get` would raise on a non-mapping record). -/
theorem zone_prompt_unique_zones (data : List Json)
    (hobj : ∀ item ∈ data, Json.isObj item = true) (v : Json) :
    v ∈ get_process_zone_zones data ↔
      ∃ item ∈ data, dict_get item zone_key = some v ∧ truthy v = true := by
  have _obj := hobj
  unfold get_process_zone_zones
  rw [List.mem_dedup, List.mem_filterMap]
  constructor
  · rintro ⟨item, hmem, hfn⟩
    refine ⟨item, hmem, ?_⟩
    cases hg : dict_get item zone_key with
    | none => simp [hg] at hfn
    | some w =>
      simp only [hg] at hfn
      by_cases ht : truthy w = true
      · simp only [ht, if_true, Option.some.injEq] at hfn
        subst hfn
        exact ⟨rfl, ht⟩
      · simp only [Bool.not_eq_true] at ht
        simp [ht] at hfn
  · rintro ⟨item, hmem, hget, ht⟩
    exact ⟨item, hmem, by simp [hget, ht]⟩

theorem zone_prompt_unique_zones_witness :
    Json.str ("Finance".toList) ∈ get_process_zone_zones sample_dataset ∧
    get_process_zone_zones sample_dataset =
      [Json.str ("Finance".toList), Json.str ("HR".toList)] :=
  ⟨(zone_prompt_unique_zones sample_dataset (by decide) (Json.str ("Finance".toList))).mpr
      ⟨Json.obj [("srno".toList, Json.str ("FP1".toList)), ("title".toList, Json.str ("A".toList)),
        ("zone".toList, Json.str ("Finance".toList))], by decide, by decide, by decide⟩,
   by decide⟩

/-- C8 counterexample: `raise_for_status` raises only for 4xx/5xx, so a non-2xx
status such as 304 does not produce a null result — the body's `response`
field is returned, contradicting the claim's "any non-2xx HTTP status returns
null". -/
theorem query_ollama_non2xx_cex :
    (304 < 200 ∨ 299 < 304) ∧
    query_ollama ("p".toList) MODEL_NAME
      (TransportOutcome.response 304 (Json.obj [("response".toList, Json.str ("hi".toList))])) =
      some (Json.str ("hi".toList)) := by
  constructor
  · right
    omega
  · rfl

/-- C8 (amended): the completion client makes a single call whose payload has
`stream = false`; on a raised `RequestException` (transport error) or an HTTP
status in 4xx/5xx it reports the error and returns a null result without
retrying; callers treat a null result as skipping the pass, keeping prior
state.  (A 1xx/3xx status, which `raise_for_status` does not raise for,
returns the body's `response` field instead.) -/
theorem query_ollama_failure_null (prompt model : List Char) (t : TransportOutcome) :
    (ollama_payload prompt model).stream = false ∧
    (t = TransportOutcome.request_exc → query_ollama prompt model t = none) ∧
    (∀ status body, t = TransportOutcome.response status body → 400 ≤ status → status < 600 →
      query_ollama prompt model t = none) ∧
    (∀ old : Json, pass_update old none = old) ∧
    (∀ old : Option Json, pz_update old none = old) := by
  refine ⟨rfl, ?_, ?_, fun old => rfl, fun old => rfl⟩
  · rintro rfl
    rfl
  · rintro status body rfl h4 h6
    have hr : raise_for_status_raises status = true := by
      simp [raise_for_status_raises, h4, h6]
    simp [query_ollama, hr]

theorem query_ollama_failure_null_witness :
    query_ollama ("p".toList) MODEL_NAME (TransportOutcome.response 500 (Json.obj [])) = none ∧
    query_ollama ("p".toList) MODEL_NAME TransportOutcome.request_exc = none ∧
    (ollama_payload ("p".toList) MODEL_NAME).stream = false ∧
    pass_update (Json.arr [Json.num 1]) none = Json.arr [Json.num 1] :=
  have h := query_ollama_failure_null ("p".toList) MODEL_NAME
    (TransportOutcome.response 500 (Json.obj []))
  have h2 := query_ollama_failure_null ("p".toList) MODEL_NAME TransportOutcome.request_exc
  ⟨h.2.2.1 500 (Json.obj []) rfl (by omega) (by omega), h2.2.1 rfl, h.1,
   h.2.2.2.1 (Json.arr [Json.num 1])⟩

theorem load_data_lines_ok (lines : List (List Char)) (acc : List Json)
    (hok : ∀ l ∈ lines, (py_strip l).isEmpty = false → json_loads l ≠ none) :
    load_data_lines lines acc =
      some (acc.reverse ++ lines.filterMap fun l =>
        if (py_strip l).isEmpty then none else json_loads l) := by
  induction lines generalizing acc with
  | nil => simp [load_data_lines]
  | cons l ls ih =>
    have hokl : ∀ l2 ∈ ls, (py_strip l2).isEmpty = false → json_loads l2 ≠ none :=
      fun l2 h2 => hok l2 (List.mem_cons_of_mem l h2)
    cases hse : (py_strip l).isEmpty with
    | true =>
      have hstep : load_data_lines (l :: ls) acc = load_data_lines ls acc := by
        simp [load_data_lines, hse]
      have hfm : List.filterMap
            (fun l => if (py_strip l).isEmpty then none else json_loads l) (l :: ls) =
          List.filterMap (fun l => if (py_strip l).isEmpty then none else json_loads l) ls := by
        rw [List.filterMap_cons]
        have hz : (if (py_strip l).isEmpty then none else json_loads l) = (none : Option Json) := by
          simp [hse]
        rw [hz]
      rw [hstep, ih acc hokl, hfm]
    | false =>
      cases hjs : json_loads l with
      | none => exact absurd hjs (hok l (List.mem_cons_self l ls) hse)
      | some v =>
        have hstep : load_data_lines (l :: ls) acc = load_data_lines ls (v :: acc) := by
          simp [load_data_lines, hse, hjs]
        have hfm : List.filterMap
              (fun l => if (py_strip l).isEmpty then none else json_loads l) (l :: ls) =
            v :: List.filterMap (fun l => if (py_strip l).isEmpty then none else json_loads l) ls := by
          rw [List.filterMap_cons]
          have hz : (if (py_strip l).isEmpty then none else json_loads l) = some v := by
            simp [hse, hjs]
          rw [hz]
        rw [hstep, ih (v :: acc) hokl, hfm]
        simp

/-- C9: a missing dataset file is handled softly — the loader reports an error
and returns the empty list (after which the session degrades to the no-data
reply context) — and an existing file whose non-blank lines all parse yields
exactly one record per non-blank line, in order. -/
theorem load_data_soft_missing (lines : List (List Char))
    (hok : ∀ l ∈ lines, (py_strip l).isEmpty = false → json_loads l ≠ none) :
    load_data none = LoadOutcome.ok [] true ∧
    load_data (some lines) = LoadOutcome.ok
      (lines.filterMap fun l => if (py_strip l).isEmpty then none else json_loads l) false ∧
    reply_context (initial_state []).flashpoints (initial_state []).data = (no_data_str, []) := by
  refine ⟨rfl, ?_, rfl⟩
  have hred : load_data (some lines) =
      (match load_data_lines lines [] with
       | some data => LoadOutcome.ok data false
       | none => LoadOutcome.exc) := rfl
  rw [hred, load_data_lines_ok lines [] hok]
  simp

theorem load_data_soft_missing_witness :
    load_data none = LoadOutcome.ok [] true ∧
    load_data (some
      ["\x7b\"srno\": \"FP1\", \"zone\": \"Finance\"\x7d".toList,
       "   ".toList,
       "[1, 2]".toList]) = LoadOutcome.ok
      [Json.obj [("srno".toList, Json.str ("FP1".toList)),
         ("zone".toList, Json.str ("Finance".toList))],
       Json.arr [Json.num 1, Json.num 2]] false :=
  have h := load_data_soft_missing
    ["\x7b\"srno\": \"FP1\", \"zone\": \"Finance\"\x7d".toList,
     "   ".toList,
     "[1, 2]".toList] (by decide)
  ⟨h.1, by
    rw [h.2.1]
    rfl⟩

/-- C10: only the file-absent case is handled softly; an existing file with a
non-blank line that is not valid JSON makes `json.loads` raise out of
`load_data` (only `FileNotFoundError` is caught), so the load is fatal rather
than returning a sequence. -/
theorem load_data_malformed_line_raises :
    load_data (some ["not json".toList]) = LoadOutcome.exc ∧
    load_data none = LoadOutcome.ok [] true := by
  constructor
  · decide
  · rfl
